import Mathlib

/-!
Verification of the voice-ai-twilio-fly repository against its specification.

The development shallowly embeds the relevant JavaScript modules:

* `Voice.Sanitize` — src/sanitize.js (redaction engine);
* `Voice.Kb`       — src/kb.js (retrieval engine: search pipeline and index persistence);
* `Voice.Twiml`    — src/twiml.js (TwiML document builder with XML escaping);
* `Voice.Bridge`   — src/index.js (session bridge: socket handlers, tool dispatch,
  contact lookup).

JavaScript strings are modelled as `List Char` where character-level scanning
matters and as `String` elsewhere; JS numbers used as similarity scores are
modelled as `ℚ` (the floating-point rounding of scores is not modelled — none of
the verified properties depend on it); `Math.sqrt` is an abstract parameter
`sqrtQ : ℚ → ℚ` since exact square roots leave `ℚ`.  Fallible external calls
(fetch to the embedding endpoint, webhook posts, file appends, the CRM lookup)
are modelled by explicit outcome environments, and a JS exception is an
`Except.error`.
-/

namespace Voice

namespace Sanitize

/-- The redaction marker `"[REDACTED]"` used by src/sanitize.js. -/
def markerL : List Char := "[REDACTED]".data

/-- Model of `FULL_REDACT_KEYWORDS` from src/sanitize.js (content-keyword rule). -/
def FULL_REDACT_KEYWORDS : List (List Char) :=
  ["password".data, "passcode".data, "pass phrase".data, "passphrase".data,
   "pin".data, "cvv".data, "cvc".data, "security code".data, "routing number".data,
   "account number".data, "ssn".data, "social security".data, "iban".data,
   "swift".data, "api key".data, "secret".data, "token".data, "otp".data,
   "one-time".data, "2fa".data, "two-factor".data, "authorization code".data]

/-- Model of `KEY_SENSITIVE_HINTS` from src/sanitize.js (field-name rule). -/
def KEY_SENSITIVE_HINTS : List (List Char) :=
  ["password".data, "passcode".data, "pin".data, "cvv".data, "cvc".data,
   "ssn".data, "social".data, "iban".data, "routing".data, "account".data,
   "secret".data, "token".data, "api".data]

/-- Model of `text.toLowerCase()` (ASCII lowering suffices for the keyword lists). -/
def toLowerL (l : List Char) : List Char := l.map Char.toLower

/-- Model of `lower.includes(keyword)` — substring containment. -/
def containsSub (hay pat : List Char) : Bool :=
  hay.tails.any (fun t => pat.isPrefixOf t)

/-- Model of `hasKeyword(text, keywords)` from src/sanitize.js: lowercases `text` and
checks whether any keyword occurs as a substring.  (`!text` only short-circuits
the empty string, on which no nonempty keyword matches anyway.) -/
def hasKeyword (text : List Char) (keywords : List (List Char)) : Bool :=
  keywords.any (fun k => containsSub (toLowerL text) k)

/-- The loop body of `luhnCheck`: runs over the digits from last to first
(`digits.reverse` here), doubling every second digit; `none` models the early
`return false` on a non-digit character code. -/
def luhnLoop : List Char → Bool → Option Nat
  | [], _ => some 0
  | c :: rest, alt =>
    let code := c.toNat
    if code < 48 ∨ 57 < code then none
    else
      let n := code - 48
      let n2 := if alt then (if 9 < n * 2 then n * 2 - 9 else n * 2) else n
      (luhnLoop rest (!alt)).map (fun s => s + n2)

/-- Model of `luhnCheck(digits)` from src/sanitize.js. -/
def luhnCheck (digits : List Char) : Bool :=
  match luhnLoop digits.reverse false with
  | some s => s % 10 == 0
  | none => false

/-- JS `\w` — word characters, for `\b` word boundaries. -/
def isWordChar (c : Char) : Bool := c.isAlphanum || c == '_'

/-- A separator character admitted inside a card-number run (`[ -]`). -/
def isSepChar (c : Char) : Bool := c == ' ' || c == '-'

/-- One match attempt of `SSN_REGEX = /\b\d{3}-\d{2}-\d{4}\b/` at the current
position: on success returns the remainder after the 11 matched characters,
also checking the trailing word boundary.  The leading boundary is checked by
the caller. -/
def ssnShape : List Char → Option (List Char)
  | a :: b :: c :: '-' :: d :: e :: '-' :: f :: g :: h :: i :: rest =>
    if [a, b, c, d, e, f, g, h, i].all Char.isDigit then
      match rest with
      | [] => some []
      | x :: _ => if isWordChar x then none else some rest
    else none
  | _ => none

/-- Global `value.replace(SSN_REGEX, ...)`: left-to-right scan, replacing every
match by the marker.  `prevWord` tracks whether the previous character is a word
character (for the leading `\b`); the Boolean result is the `redacted` flag.
After a match the scan resumes at the remainder; a fresh match there must start
with a digit, and the remainder's first character is never a word character
(the trailing `\b` of the previous match), so passing `prevWord := false` is
equivalent to consulting the original preceding character.  The fuel argument
(instantiated with the list length) only serves structural recursion. -/
def ssnScanF : Nat → Bool → List Char → List Char × Bool
  | 0, _, l => (l, false)
  | _ + 1, _, [] => ([], false)
  | f + 1, prevWord, c :: rest =>
    if prevWord then
      match ssnScanF f (isWordChar c) rest with
      | (t, r) => (c :: t, r)
    else
      match ssnShape (c :: rest) with
      | some rem =>
        match ssnScanF f false rem with
        | (t, _) => (markerL ++ t, true)
      | none =>
        match ssnScanF f (isWordChar c) rest with
        | (t, r) => (c :: t, r)

/-- The digit chain reachable by `(?:\d[ -]*?){n}` after an initial digit: lazy
separator runs are consumed exactly when they lead to a further digit, greedily
up to `n` more digits.  Returns (consumed text, consumed digits, remainder);
the consumed text ends at the last digit taken. -/
def chainTake : Nat → List Char → List Char × List Char × List Char
  | 0, l => ([], [], l)
  | n + 1, l =>
    match l.span isSepChar with
    | (seps, d :: rest) =>
      if d.isDigit then
        match chainTake n rest with
        | (t, ds, rem) => (seps ++ d :: t, d :: ds, rem)
      else ([], [], l)
    | (_, []) => ([], [], l)

/-- One match attempt of `CARD_LIKE_REGEX = /(?:\d[ -]*?){13,19}/` at a position
whose character is `c`: the greedy repetition takes up to 19 chained digits and
succeeds iff at least 13 were taken.  Returns (match text, match digits,
remainder). -/
def cardMatchAt (c : Char) (rest : List Char) : Option (List Char × List Char × List Char) :=
  if c.isDigit then
    match chainTake 18 rest with
    | (t, ds, rem) => if 13 ≤ ds.length + 1 then some (c :: t, c :: ds, rem) else none
  else none

/-- Global `text.replace(CARD_LIKE_REGEX, cb)` of `redactCardNumbers`: each
match is replaced by the marker when its digits (13–19 of them) pass the Luhn
check and kept verbatim otherwise; scanning resumes after the match either way.
The redundant 13–19 length guard of the source callback is kept.  Fuel as in
`ssnScanF`. -/
def cardScanF : Nat → List Char → List Char × Bool
  | 0, l => (l, false)
  | _ + 1, [] => ([], false)
  | f + 1, c :: rest =>
    match cardMatchAt c rest with
    | some (t, ds, rem) =>
      match cardScanF f rem with
      | (tail, r) =>
        if ds.length < 13 ∨ 19 < ds.length then (t ++ tail, r)
        else if luhnCheck ds then (markerL ++ tail, true)
        else (t ++ tail, r)
    | none =>
      match cardScanF f rest with
      | (tail, r) => (c :: tail, r)

/-- Model of `redactCardNumbers(text)` from src/sanitize.js. -/
def redactCardNumbers (text : List Char) : List Char × Bool :=
  cardScanF text.length text

/-- Model of `redactSensitiveText(value, keyHint)` from src/sanitize.js: field-name rule,
then content-keyword rule, then SSN-pattern replacement, then card-number
replacement. -/
def redactSensitiveText (value keyHint : List Char) : List Char × Bool :=
  if hasKeyword keyHint KEY_SENSITIVE_HINTS then (markerL, true)
  else if hasKeyword value FULL_REDACT_KEYWORDS then (markerL, true)
  else
    match ssnScanF value.length false value with
    | (t1, r1) =>
      match redactCardNumbers t1 with
      | (t2, r2) => (t2, r1 || r2)

mutual
/-- A JSON-like payload value, as walked by `sanitizePayload`. -/
inductive JValue where
  | str (s : List Char)
  | num (n : Int)
  | bool (b : Bool)
  | null
  | arr (items : JArray)
  | obj (fields : JObject)
/-- An ordered JSON array. -/
inductive JArray where
  | nil
  | cons (head : JValue) (tail : JArray)
/-- An ordered JSON object (insertion-ordered fields, as `Object.entries`). -/
inductive JObject where
  | nil
  | cons (key : List Char) (head : JValue) (tail : JObject)
end

/-- Decimal digits of an array index, for path bracket notation. -/
def natDigits (i : Nat) : List Char := (Nat.repr i).data

/-- Model of `path.split('.').pop()` — the characters after the last dot. -/
def lastDotSegment (l : List Char) : List Char :=
  ((l.reverse.takeWhile (fun c => c != '.')).reverse)

mutual
/-- The recursive `walk` of `sanitizePayload`: returns the sanitized value and
the redacted paths in traversal order. -/
def walkValue : JValue → List Char → JValue × List (List Char)
  | .str s, path =>
    let keyHint := lastDotSegment path
    match redactSensitiveText s keyHint with
    | (t, r) => (.str t, if r then [path] else [])
  | .arr items, path =>
    match walkArray items path 0 with
    | (its, ps) => (.arr its, ps)
  | .obj fields, path =>
    match walkObject fields path with
    | (fs, ps) => (.obj fs, ps)
  | v, _ => (v, [])
/-- Model of `value.map((item, index) => walk(item, path + brackets(index)))`. -/
def walkArray : JArray → List Char → Nat → JArray × List (List Char)
  | .nil, _, _ => (.nil, [])
  | .cons v tl, path, i =>
    match walkValue v (path ++ ('[' :: natDigits i) ++ [']']) with
    | (v2, ps) =>
      match walkArray tl path (i + 1) with
      | (tl2, ps2) => (.cons v2 tl2, ps ++ ps2)
/-- The `Object.entries` loop of `walk`. -/
def walkObject : JObject → List Char → JObject × List (List Char)
  | .nil, _ => (.nil, [])
  | .cons k v tl, path =>
    match walkValue v (if path.isEmpty then k else path ++ '.' :: k) with
    | (v2, ps) =>
      match walkObject tl path with
      | (tl2, ps2) => (.cons k v2 tl2, ps ++ ps2)
end

/-- Model of `sanitizePayload(payload)` from src/sanitize.js: walk from the empty path.
The log side effect (a warning naming the redacted paths) is not modelled; the
redacted paths themselves are the second component. -/
def sanitizePayload (v : JValue) : JValue × List (List Char) :=
  walkValue v []

/-- Observer for counterexamples: the string stored in the first field of an
object (or `[]`). -/
def firstStringValue : JValue → List Char
  | .obj (.cons _ (.str s) _) => s
  | _ => []

mutual
/-- No string value anywhere in the payload contains a decimal digit. -/
def valueDigitFree : JValue → Bool
  | .str s => s.all (fun c => !c.isDigit)
  | .arr items => arrayDigitFree items
  | .obj fields => objectDigitFree fields
  | _ => true
/-- Extension of `valueDigitFree` to arrays. -/
def arrayDigitFree : JArray → Bool
  | .nil => true
  | .cons v tl => valueDigitFree v && arrayDigitFree tl
/-- Extension of `valueDigitFree` to objects. -/
def objectDigitFree : JObject → Bool
  | .nil => true
  | .cons _ v tl => valueDigitFree v && objectDigitFree tl
end

end Sanitize

namespace Kb

/-- One indexed chunk of src/kb.js: id, source url, title, text, and the stored
(unit-normalized) embedding vector. -/
structure Chunk where
  id : String
  url : String
  title : String
  text : String
  embedding : List ℚ
deriving DecidableEq

/-- The loaded knowledge index (`data` of `loadKbIndex`): the fields `searchKb`
reads.  Timestamp, sources and chunking parameters are carried by the file but
never read during search. -/
structure KbIndex where
  embeddingModel : String
  chunks : List Chunk
deriving DecidableEq

/-- The score loop of `searchKb`: `for i: score += normalizedQuery[i] *
chunk.embedding[i]` — a dot product (chunk embeddings are assumed to have at
least the query dimension, an invariant of ingestion). -/
def dotProduct (a b : List ℚ) : ℚ :=
  ((a.zip b).map (fun p => p.1 * p.2)).sum

/-- Model of `normalizeVector(vec)` from src/kb.js, with `Math.sqrt` abstracted as
`sqrtQ`; `Math.sqrt(sum) || 1` guards a zero norm. -/
def normalizeVector (sqrtQ : ℚ → ℚ) (vec : List ℚ) : List ℚ :=
  let sum := (vec.map (fun v => v * v)).sum
  let norm := if sqrtQ sum = 0 then 1 else sqrtQ sum
  vec.map (fun v => v / norm)

/-- A chunk with its query score, as built by `index.chunks.map((chunk) =>
({...chunk, score}))`.  The positional index `idx` of the chunk in the loaded
index is made explicit in order to state the stable tie-break property. -/
structure Scored where
  idx : Nat
  chunk : Chunk
  score : ℚ
deriving DecidableEq

/-- The scoring map, tracking original chunk positions from `i` upward. -/
def scoreChunksFrom (nq : List ℚ) : Nat → List Chunk → List Scored
  | _, [] => []
  | i, c :: cs => ⟨i, c, dotProduct nq c.embedding⟩ :: scoreChunksFrom nq (i + 1) cs

/-- Model of `index.chunks.map` with scores, positions starting at 0. -/
def scoreChunks (nq : List ℚ) (chunks : List Chunk) : List Scored :=
  scoreChunksFrom nq 0 chunks

/-- The comparison realized by `.sort((a, b) => b.score - a.score)`: `a` may
stay before `b` iff `a.score ≥ b.score`. -/
def scoreGE (a b : Scored) : Prop := b.score ≤ a.score

instance : DecidableRel scoreGE := fun a b => inferInstanceAs (Decidable (b.score ≤ a.score))

instance : IsTotal Scored scoreGE := ⟨fun a b => le_total b.score a.score⟩

instance : IsTrans Scored scoreGE := ⟨fun _ _ _ h1 h2 => le_trans h2 h1⟩

/-- Model of `.sort((a, b) => b.score - a.score)`.  ECMAScript `Array.prototype.sort` is
a stable sort, and the unique stable sort by descending score is insertion sort
with `scoreGE` (equal scores keep the earlier element first). -/
def sortByScoreDesc (l : List Scored) : List Scored :=
  l.insertionSort scoreGE

/-- Model of `Number(item.score.toFixed(4))`: rounding to the nearest 1/10⁴ (the
floating-point tie behavior of `toFixed` is immaterial to the claims). -/
def round4 (q : ℚ) : ℚ := (round (q * 10000) : ℤ) / 10000

/-- One search result as returned to the caller. -/
structure SearchItem where
  score : ℚ
  url : String
  title : String
  snippet : String
deriving DecidableEq

/-- The final projection of `searchKb`: rounded score, url, title and the
400-character snippet `item.text.slice(0, 400)`. -/
def toItem (s : Scored) : SearchItem :=
  ⟨round4 s.score, s.chunk.url, s.chunk.title, s.chunk.text.take 400⟩

/-- JS `String.prototype.trim`: strip leading and trailing whitespace. -/
def jsTrim (s : String) : String :=
  String.mk (((s.data.dropWhile Char.isWhitespace).reverse.dropWhile
    Char.isWhitespace).reverse)

/-- The result object of `searchKb`: `ok`, the failure `reason` (absent on
success) and the result list. -/
structure SearchOutcome where
  ok : Bool
  reason : Option String
  results : List SearchItem
deriving DecidableEq

/-- Model of `searchKb(index, query, {apiKey, model, topK, minScore})` from src/kb.js.
`embed` is the outcome of the external `embedTexts([query], ...)` call, which
throws (`Except.error`) on a failed embedding request; the `model` option only
parameterizes that external call. -/
def searchKb (sqrtQ : ℚ → ℚ) (index : Option KbIndex) (query : String)
    (apiKey : String) (topK : Nat) (minScore : ℚ)
    (embed : Except Unit (List ℚ)) : Except Unit SearchOutcome :=
  match index with
  | none => .ok ⟨false, some "kb_not_ready", []⟩
  | some idx =>
    if jsTrim query = "" then .ok ⟨false, some "empty_query", []⟩
    else if apiKey = "" then .ok ⟨false, some "missing_api_key", []⟩
    else
      match embed with
      | .error e => .error e
      | .ok queryEmbedding =>
        let normalizedQuery := normalizeVector sqrtQ queryEmbedding
        let scored := scoreChunks normalizedQuery idx.chunks
        let results :=
          ((sortByScoreDesc (scored.filter (fun s => decide (minScore ≤ s.score)))).take
            topK).map toItem
        .ok ⟨true, none, results⟩

/-- File-system operations relevant to index persistence. -/
inductive FsOp where
  | mkdirRecursive (dir : String)
  | writeFile (path : String) (content : String)
  | rename (src : String) (dst : String)
deriving DecidableEq

/-- Model of `path.dirname`: everything before the final slash (`"."` when none). -/
def dirname (p : String) : String :=
  let pre := (p.data.reverse.dropWhile (fun c => c != '/')).reverse
  match pre with
  | [] => "."
  | ['/'] => "/"
  | _ => String.mk pre.dropLast

/-- The persistence tail of `ingestKb` (src/kb.js): `ensureDir(resolvedPath)`
(a recursive mkdir of the parent directory) followed by a single
`fs.writeFile(resolvedPath, JSON.stringify(payload), 'utf-8')` of the
serialized index document; `path.resolve` is modelled as the identity on the
already-resolved path argument. -/
def ingestPersistOps (resolvedPath : String) (payload : String) : List FsOp :=
  [FsOp.mkdirRecursive (dirname resolvedPath), FsOp.writeFile resolvedPath payload]

/-- Spec-side definition (for comparison with `ingestPersistOps`): the
atomic persistence discipline claimed by the specification — the document is
written to a temporary path and then swapped (renamed) into the final path,
with no direct write of the final path. -/
def atomicTempSwapPersist (ops : List FsOp) (finalPath : String) : Prop :=
  ∃ tmp payload, tmp ≠ finalPath ∧
    FsOp.writeFile tmp payload ∈ ops ∧
    FsOp.rename tmp finalPath ∈ ops ∧
    ∀ q, FsOp.writeFile finalPath q ∉ ops

/-- The stable descending order: `a` may precede `b` only when `a` scores
strictly higher, or they tie and `a` came first in the index. -/
def stableRel (a b : Scored) : Prop :=
  b.score < a.score ∨ (a.score = b.score ∧ a.idx < b.idx)

end Kb

namespace Twiml

/-- The double-quote character (written via its code point). -/
def quoteC : Char := Char.ofNat 34

/-- The apostrophe character (written via its code point). -/
def aposC : Char := Char.ofNat 39

/-- Model of `String.replaceAll` for the single-character patterns of `escapeXml`:
every occurrence of `c` becomes `repl`. -/
def replaceCharL (c : Char) (repl : List Char) (l : List Char) : List Char :=
  (l.map (fun x => if x = c then repl else [x])).flatten

/-- Model of `escapeXml(str)` from src/twiml.js: the five sequential `replaceAll`
calls, ampersand first. -/
def escapeXmlL (l : List Char) : List Char :=
  replaceCharL aposC "&apos;".data
    (replaceCharL quoteC "&quot;".data
      (replaceCharL '>' "&gt;".data
        (replaceCharL '<' "&lt;".data
          (replaceCharL '&' "&amp;".data l))))

/-- The function `escapeXml` at `String` type. -/
def escapeXml (s : String) : String := String.mk (escapeXmlL s.data)

/-- The per-character escape table: the five XML special characters map to
their entities, all other characters to themselves. -/
def escChar (c : Char) : List Char :=
  if c = '&' then "&amp;".data
  else if c = '<' then "&lt;".data
  else if c = '>' then "&gt;".data
  else if c = quoteC then "&quot;".data
  else if c = aposC then "&apos;".data
  else [c]

/-- One `<Parameter .../>` line of the TwiML document, name and value
escaped. -/
def paramLine (name value : String) : String :=
  "      <Parameter name=\"" ++ escapeXml name ++ "\" value=\"" ++ escapeXml value ++ "\" />"

/-- Model of `twimlConnectStream(wsUrl, parameters)` from src/twiml.js.  Parameters are
modelled as an ordered string map; the source drops entries whose value is
`undefined`, `null` or `""` (here: `""`), and `[...].filter(Boolean).join('\n')`
is realized by the conditional list pieces. -/
def twimlConnectStream (wsUrl : String) (parameters : List (String × String)) : String :=
  let entries := parameters.filter (fun p => p.2 != "")
  let hasParams := !entries.isEmpty
  String.intercalate "\n"
    (["<?xml version=\"1.0\" encoding=\"UTF-8\"?>", "<Response>", "  <Connect>",
      if hasParams then "    <Stream url=\"" ++ escapeXml wsUrl ++ "\">"
      else "    <Stream url=\"" ++ escapeXml wsUrl ++ "\" />"]
     ++ entries.map (fun p => paramLine p.1 p.2)
     ++ (if hasParams then ["    </Stream>"] else [])
     ++ ["  </Connect>", "</Response>"])

/-- The same document assembler applied to already-escaped insertions: the
fixed XML template with `escapedUrl` and the escaped, pre-filtered parameter
entries inserted verbatim.  Comparing `twimlConnectStream` with this template
shows the builder inserts caller-supplied data only through `escapeXml`. -/
def twimlTemplate (escapedUrl : String) (escapedEntries : List (String × String)) : String :=
  let hasParams := !escapedEntries.isEmpty
  String.intercalate "\n"
    (["<?xml version=\"1.0\" encoding=\"UTF-8\"?>", "<Response>", "  <Connect>",
      if hasParams then "    <Stream url=\"" ++ escapedUrl ++ "\">"
      else "    <Stream url=\"" ++ escapedUrl ++ "\" />"]
     ++ escapedEntries.map (fun p =>
          "      <Parameter name=\"" ++ p.1 ++ "\" value=\"" ++ p.2 ++ "\" />")
     ++ (if hasParams then ["    </Stream>"] else [])
     ++ ["  </Connect>", "</Response>"])

end Twiml

namespace Bridge

/-- JS `a || b` for strings: the empty string is falsy. -/
def strOr (a b : String) : String := if a = "" then b else a

/-- The resolved contact profile kept in the session (`contact`).  The source's
bare `{found: false}` object is modelled with empty strings for the absent
fields (all reads go through `||` fallbacks, for which `""` and `undefined`
coincide). -/
structure ContactProfile where
  found : Bool
  firstName : String
  company : String
  email : String
  load_number : String
  reservation_number : String
  job_city : String
deriving DecidableEq

/-- The bare not-found profile `{found: false}`. -/
def notFoundProfile : ContactProfile := ⟨false, "", "", "", "", "", ""⟩

/-- The contact record returned by the external GHL search (`contacts[0]`);
absent strings are `""` (falsy). -/
structure GhlContact where
  firstName : String
  companyName : String
  email : String
  customFields : List (String × String)
deriving DecidableEq

/-- The `customFields` loop of `lookupContact`: (load, reservation, job city),
each initialized to `"Unknown"` and overwritten by every matching non-empty
field value (the last match wins). -/
def scanCustomFields (fields : List (String × String)) : String × String × String :=
  fields.foldl
    (fun acc f =>
      let nm := Sanitize.toLowerL f.1.data
      let l := if f.2 != "" && Sanitize.containsSub nm "load".data then f.2 else acc.1
      let r := if f.2 != "" && Sanitize.containsSub nm "reservation".data then f.2 else acc.2.1
      let c :=
        if f.2 != "" &&
            (Sanitize.containsSub nm "job city".data || Sanitize.containsSub nm "job_city".data ||
              Sanitize.containsSub nm "jobcity".data)
        then f.2 else acc.2.2
      (l, r, c))
    ("Unknown", "Unknown", "Unknown")

/-- The profile built from a found contact. -/
def profileOfContact (c : GhlContact) : ContactProfile :=
  let t := scanCustomFields c.customFields
  ⟨true, strOr c.firstName "Valued Customer", strOr c.companyName "your company",
    c.email, t.1, t.2.1, t.2.2⟩

/-- The search term sent to the external GHL query: the phone number with
non-digits stripped, last 10 digits kept (`replace` of `\D` then `slice(-10)`).
It only parameterizes the external call, whose behavior the lookup
environment abstracts. -/
def raw10 (phoneNumber : String) : String :=
  String.mk (((phoneNumber.data.filter Char.isDigit).reverse.take 10).reverse)

/-- How the external `searchGHL` promise settles: it resolves with
`contacts[0]` (or `null` on a non-ok HTTP status or an empty contact list), or
it rejects (`fetch`/`json` threw). -/
inductive GhlOutcome where
  | resolves (c : Option GhlContact)
  | rejects
deriving DecidableEq

/-- Abstraction of the external lookup call: its settlement and the time (ms)
at which it settles. -/
structure LookupEnv where
  outcome : GhlOutcome
  settleMs : Nat
deriving DecidableEq

/-- The lookup timeout: `setTimeout(() => resolve(null), 8000)`. -/
def lookupTimeoutMs : Nat := 8000

/-- Model of `lookupContact(phoneNumber)` from src/index.js: guard clauses, then
`Promise.race([searchGHL(raw10), timeout])`.  If the 8000 ms timer fires first
the race resolves `null` (→ `{found: false}`); otherwise the race settles like
`searchGHL`: a resolution is mapped to a profile, and a rejection propagates
out of `lookupContact` as an exception (`Except.error` — the function has no
try/catch). -/
def lookupContact (env : LookupEnv) (phoneNumber ghlPitToken ghlLocationId : String) :
    Except Unit ContactProfile :=
  if phoneNumber = "" ∨ phoneNumber = "Unknown" ∨ ghlPitToken = "" ∨ ghlLocationId = "" then
    .ok notFoundProfile
  else if lookupTimeoutMs ≤ env.settleMs then
    .ok notFoundProfile
  else
    match env.outcome with
    | .rejects => .error ()
    | .resolves none => .ok notFoundProfile
    | .resolves (some c) => .ok (profileOfContact c)

/-- Outcomes of the external calls a tool branch can make.  `postWebhook`
catches its own failures and reports them in its return value (`webhookOk`);
`fs.appendFile` inside `appendJsonLine` has no such guard and rejects when
`appendThrows`; `embed` is the embedding call made by `searchKb`. -/
structure ExternalEnv where
  embed : Except Unit (List ℚ)
  webhookOk : Bool
  appendThrows : Bool

/-- The configuration the handlers read (webhook URLs, log path, API key). -/
structure BridgeConfig where
  apiKey : String
  webhookNewOrder : String
  webhookExistingUpdate : String
  webhookCallbackRequest : String
  webhookTransferRequest : String
  webhookUnknownQuestion : String
  unknownQuestionLogPath : String
deriving DecidableEq

/-- Model of `postWebhook(url, payload, log, label)` from src/index.js: `{ok: false,
skipped}` when the URL is unconfigured, otherwise the fetch outcome; failures
and rejections are caught and reported as `ok: false` — it never throws. -/
def postWebhook (url : String) (env : ExternalEnv) : Bool :=
  if url = "" then false else env.webhookOk

/-- The body of a `function_call_output` frame (`output: JSON.stringify(...)`). -/
inductive ToolOutput where
  | success (b : Bool)
  | successIntro (b : Bool) (introduction : String)
  | search (r : Kb.SearchOutcome)
  | failure (error : String)
deriving DecidableEq

/-- One observable action of a session handler: a frame sent to the telephony
socket, a message sent to the speech-engine socket, or an external side
effect (webhook post, log append), in program order. -/
inductive Action where
  | twilioMedia (streamSid : Option String) (payload : String)
  | twilioClear (streamSid : Option String)
  | openaiCancel
  | openaiToolOutput (callId : String) (output : ToolOutput)
  | openaiResponseCreate (instructions : Option String)
  | openaiSessionUpdate (found : Bool)
  | openaiGreeting (text : String)
  | callWebhook (url : String)
  | appendLogLine (path : String)
deriving DecidableEq

/-- The parsed tool-call arguments.  All free-text fields are strings with
`""` for an absent (falsy) value; `top_k` is the numeric argument when present
and finite. -/
structure FnArgs where
  first_name : String
  company_name : String
  email : String
  phone : String
  job_city : String
  job_state : String
  how_can_we_help_you : String
  caller_name : String
  load_number : String
  reservation_number : String
  call_notes : String
  query : String
  reason : String
  issue_summary : String
  preferred_language : String
  question : String
  topic : String
  top_k : Option Nat
deriving DecidableEq

/-- All-absent arguments. -/
def emptyArgs : FnArgs :=
  ⟨"", "", "", "", "", "", "", "", "", "", "", "", "", "", "", "", "", none⟩

/-- The `introduction` string built by the `transfer_to_agent` branch from the
(backfilled, translated) payload fields: the non-empty parts joined by
`" | "`, with the load/reservation ternary of the source. -/
def transferIntro (caller_name company_name phone email load_number reservation_number
    issue_summary preferred_language : String) : String :=
  String.intercalate " | "
    (([if caller_name != "" then some ("Caller: " ++ caller_name) else none,
       if company_name != "" then some ("Company: " ++ company_name) else none,
       if phone != "" then some ("Phone: " ++ phone) else none,
       if email != "" then some ("Email: " ++ email) else none,
       if load_number != "" then some ("Load/Reservation: " ++ load_number)
       else if reservation_number != "" then some ("Reservation: " ++ reservation_number)
       else none,
       if issue_summary != "" then some ("Issue: " ++ issue_summary) else none,
       if preferred_language != "" then some ("Language: " ++ preferred_language) else none
      ]).filterMap id)

/-- The `response.function_call_arguments.done` dispatch of src/index.js
(lines 999–1104 of the current handler), as the list of actions it performs in
order, or `Except.error` when its body throws (uncaught inside the branch).

Branch notes, mirroring the source:
* `submit_new_intake` / `report_existing_issue` / `request_callback` /
  `transfer_to_agent`: the argument backfill from the contact profile and the
  best-effort translation pass never throw and only shape the webhook body;
  the webhook post itself never throws (`postWebhook`), and its `ok` flag is
  what the correlated output reports as `success`.
* `kb_search`: `searchKb` throws iff the embedding request fails; that
  exception escapes the branch (nothing has been emitted yet).
* `log_unknown_question`: `appendJsonLine` rejects when the file append
  fails, before the webhook post and the output frame; the webhook result is
  ignored and the output is always `{success: true}`.
* any other name: `{success: false, error: 'Unknown tool'}` plus a bare
  `response.create`. -/
def handleFunctionCall (sqrtQ : ℚ → ℚ) (cfg : BridgeConfig) (env : ExternalEnv)
    (contact : ContactProfile) (callerPhone : String) (kbIndex : Option Kb.KbIndex)
    (name callId : String) (args : FnArgs) : Except Unit (List Action) :=
  if name = "submit_new_intake" then
    .ok [.callWebhook cfg.webhookNewOrder,
         .openaiToolOutput callId (.success (postWebhook cfg.webhookNewOrder env)),
         .openaiResponseCreate
           (some "Confirm the intake is complete and that a quote will be emailed shortly.")]
  else if name = "report_existing_issue" then
    .ok [.callWebhook cfg.webhookExistingUpdate,
         .openaiToolOutput callId (.success (postWebhook cfg.webhookExistingUpdate env)),
         .openaiResponseCreate
           (some "Say: \"I have sent those notes to dispatch. They will call you back shortly with an update.\"")]
  else if name = "kb_search" then
    match Kb.searchKb sqrtQ kbIndex args.query cfg.apiKey (args.top_k.getD 5) (72 / 100)
        env.embed with
    | .error e => .error e
    | .ok result =>
      .ok [.openaiToolOutput callId (.search result), .openaiResponseCreate none]
  else if name = "request_callback" then
    .ok [.callWebhook cfg.webhookCallbackRequest,
         .openaiToolOutput callId (.success (postWebhook cfg.webhookCallbackRequest env)),
         .openaiResponseCreate
           (some "Let the caller know dispatch will call them back with an update. Confirm their best callback number and email.")]
  else if name = "transfer_to_agent" then
    let intro := transferIntro
      (strOr args.caller_name (strOr contact.firstName "Unknown"))
      (strOr args.company_name contact.company)
      (strOr args.phone callerPhone)
      (strOr args.email contact.email)
      (strOr args.load_number contact.load_number)
      (strOr args.reservation_number contact.reservation_number)
      args.issue_summary
      args.preferred_language
    .ok [.callWebhook cfg.webhookTransferRequest,
         .openaiToolOutput callId
           (.successIntro (postWebhook cfg.webhookTransferRequest env) intro),
         .openaiResponseCreate
           (some "Tell the caller you are transferring them to an agent now and summarize what you are passing along.")]
  else if name = "log_unknown_question" then
    if env.appendThrows then .error ()
    else
      .ok [.appendLogLine cfg.unknownQuestionLogPath,
           .callWebhook cfg.webhookUnknownQuestion,
           .openaiToolOutput callId (.success true),
           .openaiResponseCreate none]
  else
    .ok [.openaiToolOutput callId (.failure "Unknown tool"),
         .openaiResponseCreate none]

/-- A parsed message from the speech-engine socket, by the discriminating
`response.type` of the handler. -/
inductive OpenaiEvent where
  | audioDelta (delta : String)
  | speechStarted
  | functionCallDone (name : String) (callId : String) (args : FnArgs)
  | parseFailure
  | other
deriving DecidableEq

/-- The `openaiWs.on('message')` handler of src/index.js: audio deltas are
relayed to the telephony socket; `input_audio_buffer.speech_started`
immediately emits a `clear` frame and a `response.cancel` (there is no state
consulted and no cooldown); function-call events go through
`handleFunctionCall`.  The whole body is wrapped in try/catch: a thrown
exception (unparseable JSON, or a branch throw) is logged and nothing further
is sent. -/
def onOpenaiMessage (sqrtQ : ℚ → ℚ) (cfg : BridgeConfig) (env : ExternalEnv)
    (contact : ContactProfile) (callerPhone : String) (kbIndex : Option Kb.KbIndex)
    (streamSid : Option String) (ev : OpenaiEvent) : List Action :=
  match ev with
  | .audioDelta d => if d = "" then [] else [.twilioMedia streamSid d]
  | .speechStarted => [.twilioClear streamSid, .openaiCancel]
  | .functionCallDone name callId args =>
    match handleFunctionCall sqrtQ cfg env contact callerPhone kbIndex name callId args with
    | .ok actions => actions
    | .error _ => []
  | .parseFailure => []
  | .other => []

/-- Does an action list contain a `clear` frame to the telephony side? -/
def hasClearFrame (actions : List Action) : Bool :=
  actions.any (fun a => match a with | .twilioClear _ => true | _ => false)

/-- The timestamps (ms) at which a timed trace of speech-engine events makes
the handler emit a `clear` frame. -/
def emittedClearTimes (sqrtQ : ℚ → ℚ) (cfg : BridgeConfig) (env : ExternalEnv)
    (contact : ContactProfile) (callerPhone : String) (kbIndex : Option Kb.KbIndex)
    (streamSid : Option String) (evs : List (Nat × OpenaiEvent)) : List Nat :=
  evs.filterMap (fun te =>
    if hasClearFrame (onOpenaiMessage sqrtQ cfg env contact callerPhone kbIndex streamSid te.2)
    then some te.1 else none)

/-- The correlated outputs with a given call id in an action list. -/
def toolOutputsFor (actions : List Action) (callId : String) : List ToolOutput :=
  actions.filterMap (fun a =>
    match a with
    | .openaiToolOutput c out => if c = callId then some out else none
    | _ => none)

/-- Model of `sendSessionConfig(info)` from src/index.js: one `session.update` whose
instructions/prompt are selected by `info.found`, then one `response.create`
instructing the engine to say the greeting verbatim. -/
def initialGreeting (c : ContactProfile) : String :=
  if c.found then
    "Hi " ++ c.firstName ++
      ", I'm Mike. Thank you for reaching back out to EZ Lumper Services. Are you calling about an existing service request or a new request?"
  else "EZ Lumper Services. Mike speaking. How can I help you?"

/-- The two messages `sendSessionConfig` sends to the speech engine. -/
def sessionConfigActions (c : ContactProfile) : List Action :=
  [.openaiSessionUpdate c.found,
   .openaiGreeting ("Say exactly: \"" ++ initialGreeting c ++ "\"")]

/-- The `start` branch of `conn.socket.on('message')` (src/index.js lines
1126–1136) after recording `streamSid`/`callerPhone`: `await
lookupContact(...)` then `sendSessionConfig(contact)`.  A rejected lookup
promise makes the async handler reject before `sendSessionConfig`, so no
session configuration is produced; on resolution the configuration is sent
immediately (socket open) or deferred to the engine socket's open event —
either way exactly the two messages of `sessionConfigActions`. -/
def onStartEvent (lookupResult : Except Unit ContactProfile) : List Action :=
  match lookupResult with
  | .error _ => []
  | .ok c => sessionConfigActions c

/-- WebSocket ready states. -/
inductive WsReadyState where
  | connecting
  | opened
  | closing
  | closed
deriving DecidableEq

/-- The two sockets of one session. -/
structure SessionSockets where
  twilio : WsReadyState
  openai : WsReadyState
deriving DecidableEq

/-- The telephony socket's close event together with its handler
(`conn.socket.on('close')`, src/index.js lines 1146–1150): the engine socket is
closed when it is `OPEN` or `CONNECTING`. -/
def applyTwilioCloseEvent (s : SessionSockets) : SessionSockets :=
  { twilio := .closed,
    openai :=
      if s.openai = .opened ∨ s.openai = .connecting then .closed else s.openai }

/-- The speech-engine socket's close event together with its handler
(`openaiWs.on('close')`, src/index.js lines 1115–1117): the handler only logs
and performs no operation on the telephony socket. -/
def applyOpenaiCloseEvent (s : SessionSockets) : SessionSockets :=
  { twilio := s.twilio, openai := .closed }

end Bridge

/-! Concrete instances used by witnesses and counterexamples. -/

/-- A square-root stand-in for concrete evaluations (the verified properties
never depend on the values `sqrtQ` takes). -/
def idSqrt : ℚ → ℚ := fun q => q

/-- A fully configured bridge. -/
def demoCfg : Bridge.BridgeConfig :=
  ⟨"sk-key", "https://hooks.example/new", "https://hooks.example/upd",
   "https://hooks.example/cb", "https://hooks.example/tr",
   "https://hooks.example/unk", "./data/unknown_questions.log"⟩

/-- External calls all succeed; the embedding call returns a 1-vector. -/
def demoEnvOk : Bridge.ExternalEnv := ⟨.ok [1], true, false⟩

/-- The embedding request fails (rejected fetch or non-ok status):
`embedTexts` throws. -/
def demoEnvEmbedFail : Bridge.ExternalEnv := ⟨.error (), true, false⟩

/-- A one-chunk knowledge index. -/
def demoIndex : Kb.KbIndex :=
  ⟨"text-embedding-3-small", [⟨"https://e/#1", "https://e/", "T", "text", [1]⟩]⟩

/-- Arguments of a `kb_search` invocation with a non-empty query. -/
def demoKbArgs : Bridge.FnArgs := { Bridge.emptyArgs with query := "hours" }

/-- The payload breaking idempotence of `sanitizePayload`: card redaction of
the trailing Luhn-valid 16-digit run exposes an SSN-shaped pattern
(`123-45-6789` followed by the marker) that only a second pass redacts. -/
def cex9 : Sanitize.JValue :=
  .obj (.cons "note".data (.str "1234567890 123-45-67894111111111111111".data) .nil)

/-- A digit-free payload for the amended idempotence claim. -/
def w9 : Sanitize.JValue :=
  .obj (.cons "password".data (.str "hunter two".data)
    (.cons "note".data (.str "my ssn is secret".data) .nil))

/-!
## Theorems

First the claims over the session-socket model, index persistence and the
contact lookup, then the retrieval, redaction and TwiML escaping claims with
their supporting lemmas.
-/

/-- Claim C2: — counterexample.  The claim states that closing either socket
propagates to the other.  It is false in the speech-engine → telephony
direction: the `openaiWs.on('close')` handler only logs, so after the engine
socket closes on a session whose telephony socket is OPEN, the telephony
socket is still OPEN — a half-open pair remains. -/
theorem claim_C2_counterexample :
    (Bridge.applyOpenaiCloseEvent
        ⟨Bridge.WsReadyState.opened, Bridge.WsReadyState.opened⟩).twilio
      = Bridge.WsReadyState.opened ∧
    (Bridge.applyOpenaiCloseEvent
        ⟨Bridge.WsReadyState.opened, Bridge.WsReadyState.opened⟩).openai
      = Bridge.WsReadyState.closed := by
  decide

/-- Claim C2: — amended: close propagation is one-directional.  When the
telephony socket closes, the handler closes the speech-engine connection if it
is open or connecting; when the speech-engine connection closes, its handler
closes nothing, leaving the telephony socket in whatever state it had. -/
theorem claim_C2 (s : Bridge.SessionSockets)
    (h : s.openai = Bridge.WsReadyState.opened ∨ s.openai = Bridge.WsReadyState.connecting) :
    (Bridge.applyTwilioCloseEvent s).openai = Bridge.WsReadyState.closed ∧
    (Bridge.applyTwilioCloseEvent s).twilio = Bridge.WsReadyState.closed ∧
    (Bridge.applyOpenaiCloseEvent s).openai = Bridge.WsReadyState.closed ∧
    (Bridge.applyOpenaiCloseEvent s).twilio = s.twilio := by
  refine ⟨?_, rfl, rfl, rfl⟩
  simp [Bridge.applyTwilioCloseEvent, h]

/-- Witness for C2 at a concrete session state. -/
theorem claim_C2_witness :
    (Bridge.applyTwilioCloseEvent
        ⟨Bridge.WsReadyState.opened, Bridge.WsReadyState.opened⟩).openai
      = Bridge.WsReadyState.closed ∧
    (Bridge.applyTwilioCloseEvent
        ⟨Bridge.WsReadyState.opened, Bridge.WsReadyState.opened⟩).twilio
      = Bridge.WsReadyState.closed ∧
    (Bridge.applyOpenaiCloseEvent
        ⟨Bridge.WsReadyState.opened, Bridge.WsReadyState.opened⟩).openai
      = Bridge.WsReadyState.closed ∧
    (Bridge.applyOpenaiCloseEvent
        ⟨Bridge.WsReadyState.opened, Bridge.WsReadyState.opened⟩).twilio
      = Bridge.WsReadyState.opened :=
  claim_C2 ⟨Bridge.WsReadyState.opened, Bridge.WsReadyState.opened⟩ (Or.inl rfl)

/-- Claim C3: — counterexample.  The specification claims the index snapshot is
persisted by writing a temporary path and swapping it into place.  The
persistence trace of `ingestKb` contains no rename operation at all (it is a
recursive mkdir followed by a direct write of the final path), so the claimed
discipline fails at any concrete path. -/
theorem claim_C3_counterexample :
    ¬ Kb.atomicTempSwapPersist
        (Kb.ingestPersistOps "/app/data/kb_index.json" "serialized-index")
        "/app/data/kb_index.json" := by
  rintro ⟨tmp, payload, -, -, hren, -⟩
  simp [Kb.ingestPersistOps] at hren

/-- Claim C3: — amended: ingestion persists the index with a single direct
`fs.writeFile` of the serialized document at the final resolved path (after
ensuring its directory exists); every write in the trace targets the final
path and no temporary file or rename is involved, so a concurrent reader of
the index file can observe a partially written document. -/
theorem claim_C3 (resolvedPath payload : String) :
    Kb.FsOp.writeFile resolvedPath payload ∈ Kb.ingestPersistOps resolvedPath payload ∧
    (∀ q content,
      Kb.FsOp.writeFile q content ∈ Kb.ingestPersistOps resolvedPath payload →
        q = resolvedPath) ∧
    (∀ src dst, Kb.FsOp.rename src dst ∉ Kb.ingestPersistOps resolvedPath payload) := by
  refine ⟨by simp [Kb.ingestPersistOps], ?_, ?_⟩
  · intro q content hq
    simp [Kb.ingestPersistOps] at hq
    exact hq.1
  · intro src dst h
    simp [Kb.ingestPersistOps] at h

/-- Witness for C3 at a concrete path. -/
theorem claim_C3_witness :
    Kb.FsOp.writeFile "/d/i.json" "x" ∈ Kb.ingestPersistOps "/d/i.json" "x" ∧
    Kb.FsOp.rename "/d/i.json.tmp" "/d/i.json" ∉ Kb.ingestPersistOps "/d/i.json" "x" :=
  ⟨(claim_C3 "/d/i.json" "x").1, (claim_C3 "/d/i.json" "x").2.2 "/d/i.json.tmp" "/d/i.json"⟩

/-- Claim C5: — counterexample.  The claim states that on any failure of the
external lookup the profile resolves to `found: false` and that lookup failure
never prevents the session configuration from being sent.  But `lookupContact`
has no try/catch: when the `searchGHL` fetch rejects before the 8000 ms timer
(here at 100 ms), `Promise.race` rejects, `lookupContact` throws, and the
`start` handler aborts before `sendSessionConfig` — no configuration message
is produced. -/
theorem claim_C5_counterexample :
    Bridge.lookupContact ⟨Bridge.GhlOutcome.rejects, 100⟩ "+15551234567" "pit-token" "loc-1"
      = .error () ∧
    Bridge.onStartEvent
      (Bridge.lookupContact ⟨Bridge.GhlOutcome.rejects, 100⟩ "+15551234567" "pit-token" "loc-1")
      = [] :=
  ⟨rfl, rfl⟩

/-- Claim C5: — amended.  For a session start with a usable phone number and CRM
credentials: the lookup is raced against the 8000 ms timer, and on timeout, a
non-ok HTTP response, or an empty contact list the profile resolves to
`found: false` and the session configuration is sent; when a contact is found
its profile is used.  But a lookup promise **rejection** before the timeout
propagates as an exception and prevents the session configuration from being
sent. -/
theorem claim_C5 (env : Bridge.LookupEnv) (phone tok loc : String)
    (hguard : ¬(phone = "" ∨ phone = "Unknown" ∨ tok = "" ∨ loc = "")) :
    (Bridge.lookupTimeoutMs ≤ env.settleMs →
      Bridge.lookupContact env phone tok loc = .ok Bridge.notFoundProfile) ∧
    (env.settleMs < Bridge.lookupTimeoutMs → env.outcome = .resolves none →
      Bridge.lookupContact env phone tok loc = .ok Bridge.notFoundProfile) ∧
    (env.settleMs < Bridge.lookupTimeoutMs → ∀ c, env.outcome = .resolves (some c) →
      Bridge.lookupContact env phone tok loc = .ok (Bridge.profileOfContact c) ∧
      (Bridge.profileOfContact c).found = true) ∧
    (env.settleMs < Bridge.lookupTimeoutMs → env.outcome = .rejects →
      Bridge.lookupContact env phone tok loc = .error () ∧
      Bridge.onStartEvent (Bridge.lookupContact env phone tok loc) = []) ∧
    (∀ p, Bridge.onStartEvent (.ok p) = Bridge.sessionConfigActions p) := by
  refine ⟨?_, ?_, ?_, ?_, fun p => rfl⟩
  · intro ht
    simp [Bridge.lookupContact, hguard, ht]
  · intro ht hout
    simp [Bridge.lookupContact, hguard, Nat.not_le.mpr ht, hout]
  · intro ht c hout
    refine ⟨?_, rfl⟩
    simp [Bridge.lookupContact, hguard, Nat.not_le.mpr ht, hout]
  · intro ht hout
    have h1 : Bridge.lookupContact env phone tok loc = .error () := by
      simp [Bridge.lookupContact, hguard, Nat.not_le.mpr ht, hout]
    exact ⟨h1, by rw [h1]; rfl⟩

/-- No branch of the function-call dispatch ever emits a `clear` frame. -/
theorem handleFunctionCall_no_clear (sqrtQ : ℚ → ℚ) (cfg : Bridge.BridgeConfig)
    (env : Bridge.ExternalEnv) (contact : Bridge.ContactProfile) (callerPhone : String)
    (kbIndex : Option Kb.KbIndex) (name callId : String) (args : Bridge.FnArgs)
    (acts : List Bridge.Action)
    (h : Bridge.handleFunctionCall sqrtQ cfg env contact callerPhone kbIndex name callId args
      = .ok acts) :
    Bridge.hasClearFrame acts = false := by
  unfold Bridge.handleFunctionCall at h
  split_ifs at h
  all_goals
    first
      | (simp only [Except.ok.injEq] at h
         subst h
         simp [Bridge.hasClearFrame])
      | (split at h
         · simp at h
         · simp only [Except.ok.injEq] at h
           subst h
           simp [Bridge.hasClearFrame])

/-- A `clear` frame is emitted exactly on a `speech_started` event. -/
theorem onOpenaiMessage_clear_iff (sqrtQ : ℚ → ℚ) (cfg : Bridge.BridgeConfig)
    (env : Bridge.ExternalEnv) (contact : Bridge.ContactProfile) (callerPhone : String)
    (kbIndex : Option Kb.KbIndex) (streamSid : Option String) (ev : Bridge.OpenaiEvent) :
    Bridge.hasClearFrame
        (Bridge.onOpenaiMessage sqrtQ cfg env contact callerPhone kbIndex streamSid ev) = true
      ↔ ev = Bridge.OpenaiEvent.speechStarted := by
  cases ev with
  | speechStarted => simp [Bridge.onOpenaiMessage, Bridge.hasClearFrame]
  | audioDelta d =>
    by_cases hd : d = "" <;> simp [Bridge.onOpenaiMessage, hd, Bridge.hasClearFrame]
  | parseFailure => simp [Bridge.onOpenaiMessage, Bridge.hasClearFrame]
  | other => simp [Bridge.onOpenaiMessage, Bridge.hasClearFrame]
  | functionCallDone name callId args =>
    simp only [Bridge.onOpenaiMessage]
    rcases hh : Bridge.handleFunctionCall sqrtQ cfg env contact callerPhone kbIndex name callId
        args with e | acts
    · simp [Bridge.hasClearFrame]
    · rw [handleFunctionCall_no_clear sqrtQ cfg env contact callerPhone kbIndex name callId
        args acts hh]
      simp

/-- Claim C4: — counterexample.  The claim states a 250 ms cooldown suppresses a
second `clear` frame.  The handler has no cooldown and no
`lastInterruptTimestamp`: two `speech_started` events 100 ms apart each emit a
`clear` frame. -/
theorem claim_C4_counterexample :
    Bridge.emittedClearTimes idSqrt demoCfg demoEnvOk Bridge.notFoundProfile "Unknown" none
        (some "MZ1")
        [(0, Bridge.OpenaiEvent.speechStarted), (100, Bridge.OpenaiEvent.speechStarted)]
      = [0, 100] ∧
    100 - 0 < 250 := by
  constructor
  · rfl
  · decide

/-- Claim C4: — amended: there is no cooldown.  Every `speech_started` event,
regardless of its distance from a prior clear, emits exactly the `clear` frame
followed by a `response.cancel`; over any timed trace the clear timestamps are
exactly the timestamps of the `speech_started` events. -/
theorem claim_C4 (sqrtQ : ℚ → ℚ) (cfg : Bridge.BridgeConfig) (env : Bridge.ExternalEnv)
    (contact : Bridge.ContactProfile) (callerPhone : String) (kbIndex : Option Kb.KbIndex)
    (streamSid : Option String) (evs : List (Nat × Bridge.OpenaiEvent)) :
    Bridge.onOpenaiMessage sqrtQ cfg env contact callerPhone kbIndex streamSid
        Bridge.OpenaiEvent.speechStarted
      = [Bridge.Action.twilioClear streamSid, Bridge.Action.openaiCancel] ∧
    Bridge.emittedClearTimes sqrtQ cfg env contact callerPhone kbIndex streamSid evs
      = (evs.filter (fun te => decide (te.2 = Bridge.OpenaiEvent.speechStarted))).map
          Prod.fst := by
  refine ⟨rfl, ?_⟩
  induction evs with
  | nil => rfl
  | cons te rest ih =>
    by_cases hte : te.2 = Bridge.OpenaiEvent.speechStarted
    · have hcl : Bridge.hasClearFrame
          (Bridge.onOpenaiMessage sqrtQ cfg env contact callerPhone kbIndex streamSid
            Bridge.OpenaiEvent.speechStarted) = true := rfl
      simpa [Bridge.emittedClearTimes, List.filterMap_cons, List.filter_cons, hte, hcl]
        using ih
    · have hcl : Bridge.hasClearFrame
          (Bridge.onOpenaiMessage sqrtQ cfg env contact callerPhone kbIndex streamSid te.2)
            = false := by
        cases hb : Bridge.hasClearFrame
            (Bridge.onOpenaiMessage sqrtQ cfg env contact callerPhone kbIndex streamSid
              te.2) with
        | false => rfl
        | true =>
          exact absurd
            ((onOpenaiMessage_clear_iff sqrtQ cfg env contact callerPhone kbIndex streamSid
              te.2).mp hb) hte
      simpa [Bridge.emittedClearTimes, List.filterMap_cons, List.filter_cons, hcl, hte]
        using ih

/-- A successful embedding outcome makes `searchKb` total: it returns some
result object (tagged failure or success), never an exception. -/
theorem searchKb_isOk (sqrtQ : ℚ → ℚ) (index : Option Kb.KbIndex) (query apiKey : String)
    (topK : Nat) (minScore : ℚ) (v : List ℚ) :
    ∃ r, Kb.searchKb sqrtQ index query apiKey topK minScore (.ok v) = .ok r := by
  unfold Kb.searchKb
  cases index with
  | none => exact ⟨_, rfl⟩
  | some idx =>
    by_cases h1 : Kb.jsTrim query = ""
    · simp [h1]
    · by_cases h2 : apiKey = "" <;> simp [h1, h2]

/-- Claim C1: — counterexample.  The claim states every tool invocation emits
exactly one correlated output even on internal failure (e.g. a failed
embedding request during `kb_search`).  But `searchKb` has no try/catch around
`embedTexts`; the throw escapes to the outer message-handler catch, which only
logs — so a `kb_search` invocation whose embedding request fails emits **no**
`function_call_output` frame for its correlation id. -/
theorem claim_C1_counterexample :
    Bridge.toolOutputsFor
        (Bridge.onOpenaiMessage idSqrt demoCfg demoEnvEmbedFail Bridge.notFoundProfile
          "Unknown" (some demoIndex) (some "MZ1")
          (Bridge.OpenaiEvent.functionCallDone "kb_search" "call_7" demoKbArgs))
        "call_7"
      = [] := by
  decide

/-- Claim C1: — amended.  Whenever the handler body completes without an uncaught
throw — i.e. the embedding call succeeds (webhook posts and translation are
internally caught and cannot throw) and the unknown-question file append
succeeds — every tool invocation, for every tool name (known or unknown) and
every webhook outcome, emits exactly one `function_call_output` echoing its
correlation id, with failure encoded in the output (`success:
webhookResult.ok` for the webhook tools, the tagged search result for
`kb_search`, `success: false, error: 'Unknown tool'` for unknown names). -/
theorem claim_C1 (sqrtQ : ℚ → ℚ) (cfg : Bridge.BridgeConfig) (env : Bridge.ExternalEnv)
    (contact : Bridge.ContactProfile) (callerPhone : String) (kbIndex : Option Kb.KbIndex)
    (streamSid : Option String) (name callId : String) (args : Bridge.FnArgs)
    (hembed : ∃ v, env.embed = .ok v) (happend : env.appendThrows = false) :
    (Bridge.toolOutputsFor
        (Bridge.onOpenaiMessage sqrtQ cfg env contact callerPhone kbIndex streamSid
          (Bridge.OpenaiEvent.functionCallDone name callId args)) callId).length = 1 ∧
    (name = "submit_new_intake" →
      Bridge.toolOutputsFor
          (Bridge.onOpenaiMessage sqrtQ cfg env contact callerPhone kbIndex streamSid
            (Bridge.OpenaiEvent.functionCallDone name callId args)) callId
        = [Bridge.ToolOutput.success (Bridge.postWebhook cfg.webhookNewOrder env)]) ∧
    (∀ r, name = "kb_search" →
      Kb.searchKb sqrtQ kbIndex args.query cfg.apiKey (args.top_k.getD 5) (72 / 100) env.embed
        = .ok r →
      Bridge.toolOutputsFor
          (Bridge.onOpenaiMessage sqrtQ cfg env contact callerPhone kbIndex streamSid
            (Bridge.OpenaiEvent.functionCallDone name callId args)) callId
        = [Bridge.ToolOutput.search r]) ∧
    (name ∉ ["submit_new_intake", "report_existing_issue", "kb_search", "request_callback",
        "transfer_to_agent", "log_unknown_question"] →
      Bridge.toolOutputsFor
          (Bridge.onOpenaiMessage sqrtQ cfg env contact callerPhone kbIndex streamSid
            (Bridge.OpenaiEvent.functionCallDone name callId args)) callId
        = [Bridge.ToolOutput.failure "Unknown tool"]) := by
  by_cases h1 : name = "submit_new_intake"
  · subst h1
    refine ⟨?_, fun _ => ?_, fun r hk => absurd hk (by decide),
      fun hmem => absurd (by decide) hmem⟩ <;>
      simp [Bridge.onOpenaiMessage, Bridge.handleFunctionCall, Bridge.toolOutputsFor]
  · by_cases h2 : name = "report_existing_issue"
    · subst h2
      refine ⟨?_, fun he => absurd he (by decide), fun r hk => absurd hk (by decide),
        fun hmem => absurd (by decide) hmem⟩
      simp [Bridge.onOpenaiMessage, Bridge.handleFunctionCall, Bridge.toolOutputsFor]
    · by_cases h3 : name = "kb_search"
      · subst h3
        obtain ⟨v, hv⟩ := hembed
        obtain ⟨r0, hr0⟩ := searchKb_isOk sqrtQ kbIndex args.query cfg.apiKey
          (args.top_k.getD 5) (72 / 100) v
        have hr : Kb.searchKb sqrtQ kbIndex args.query cfg.apiKey (args.top_k.getD 5)
            (72 / 100) env.embed = .ok r0 := by rw [hv]; exact hr0
        refine ⟨?_, fun he => absurd he (by decide), fun r hk hr2 => ?_,
          fun hmem => absurd (by decide) hmem⟩
        · simp [Bridge.onOpenaiMessage, Bridge.handleFunctionCall, hr,
            Bridge.toolOutputsFor]
        · rw [hr] at hr2
          injection hr2 with hr3
          subst hr3
          simp [Bridge.onOpenaiMessage, Bridge.handleFunctionCall, hr,
            Bridge.toolOutputsFor]
      · by_cases h4 : name = "request_callback"
        · subst h4
          refine ⟨?_, fun he => absurd he (by decide), fun r hk => absurd hk (by decide),
            fun hmem => absurd (by decide) hmem⟩
          simp [Bridge.onOpenaiMessage, Bridge.handleFunctionCall, Bridge.toolOutputsFor]
        · by_cases h5 : name = "transfer_to_agent"
          · subst h5
            refine ⟨?_, fun he => absurd he (by decide), fun r hk => absurd hk (by decide),
              fun hmem => absurd (by decide) hmem⟩
            simp [Bridge.onOpenaiMessage, Bridge.handleFunctionCall, Bridge.toolOutputsFor]
          · by_cases h6 : name = "log_unknown_question"
            · subst h6
              refine ⟨?_, fun he => absurd he (by decide), fun r hk => absurd hk (by decide),
                fun hmem => absurd (by decide) hmem⟩
              simp [Bridge.onOpenaiMessage, Bridge.handleFunctionCall, happend,
                Bridge.toolOutputsFor]
            · refine ⟨?_, fun he => absurd he h1, fun r hk => absurd hk h3, fun _ => ?_⟩ <;>
                simp [Bridge.onOpenaiMessage, Bridge.handleFunctionCall, h1, h2, h3, h4, h5,
                  h6, Bridge.toolOutputsFor]

/-- Witness for C1: a successful `kb_search` invocation emits exactly one
correlated output. -/
theorem claim_C1_witness :
    (Bridge.toolOutputsFor
        (Bridge.onOpenaiMessage idSqrt demoCfg demoEnvOk Bridge.notFoundProfile "Unknown"
          (some demoIndex) (some "MZ1")
          (Bridge.OpenaiEvent.functionCallDone "kb_search" "call_9" demoKbArgs))
        "call_9").length = 1 :=
  (claim_C1 idSqrt demoCfg demoEnvOk Bridge.notFoundProfile "Unknown" (some demoIndex)
    (some "MZ1") "kb_search" "call_9" demoKbArgs ⟨[1], rfl⟩ rfl).1

/-- Witness for C5: a timeout (lookup settles at 9000 ms > 8000 ms) resolves
to the not-found profile, and a resolved lookup always yields the two
session-configuration messages. -/
theorem claim_C5_witness :
    Bridge.lookupContact ⟨Bridge.GhlOutcome.resolves none, 9000⟩ "+15551234567" "pit-token" "loc-1"
      = .ok Bridge.notFoundProfile ∧
    Bridge.onStartEvent (.ok Bridge.notFoundProfile)
      = Bridge.sessionConfigActions Bridge.notFoundProfile :=
  ⟨(claim_C5 ⟨Bridge.GhlOutcome.resolves none, 9000⟩ "+15551234567" "pit-token" "loc-1"
      (by decide)).1 (by decide),
   (claim_C5 ⟨Bridge.GhlOutcome.resolves none, 9000⟩ "+15551234567" "pit-token" "loc-1"
      (by decide)).2.2.2.2 Bridge.notFoundProfile⟩

/-- Claim C6:.  `searchKb` returns a tagged failure (never an exception) in
exactly the three guard cases — missing index (`kb_not_ready`), blank query
(`empty_query`), missing credentials (`missing_api_key`) — and in every other
case, provided the embedding call succeeds, it returns `ok: true`; when
additionally no chunk scores at or above `minScore` the result is `ok: true`
with an empty list, distinguishable from the three failure reasons (which are
pairwise distinct, and carry `ok: false`). -/
theorem claim_C6 (sqrtQ : ℚ → ℚ) (idx : Kb.KbIndex) (query apiKey : String)
    (topK : Nat) (minScore : ℚ) (embed : Except Unit (List ℚ)) (v : List ℚ) :
    Kb.searchKb sqrtQ none query apiKey topK minScore embed
      = .ok ⟨false, some "kb_not_ready", []⟩ ∧
    (Kb.jsTrim query = "" →
      Kb.searchKb sqrtQ (some idx) query apiKey topK minScore embed
        = .ok ⟨false, some "empty_query", []⟩) ∧
    (Kb.jsTrim query ≠ "" → apiKey = "" →
      Kb.searchKb sqrtQ (some idx) query apiKey topK minScore embed
        = .ok ⟨false, some "missing_api_key", []⟩) ∧
    (Kb.jsTrim query ≠ "" → apiKey ≠ "" → embed = .ok v →
      ∃ rs, Kb.searchKb sqrtQ (some idx) query apiKey topK minScore embed
        = .ok ⟨true, none, rs⟩) ∧
    (Kb.jsTrim query ≠ "" → apiKey ≠ "" → embed = .ok v →
      (∀ s ∈ Kb.scoreChunks (Kb.normalizeVector sqrtQ v) idx.chunks, s.score < minScore) →
      Kb.searchKb sqrtQ (some idx) query apiKey topK minScore embed
        = .ok ⟨true, none, []⟩) ∧
    (("kb_not_ready" : String) ≠ "empty_query" ∧
      ("kb_not_ready" : String) ≠ "missing_api_key" ∧
      ("empty_query" : String) ≠ "missing_api_key") := by
  refine ⟨rfl, ?_, ?_, ?_, ?_, by decide⟩
  · intro h1
    simp [Kb.searchKb, h1]
  · intro h1 h2
    simp [Kb.searchKb, h1, h2]
  · intro h1 h2 hv
    subst hv
    refine ⟨((Kb.sortByScoreDesc
        ((Kb.scoreChunks (Kb.normalizeVector sqrtQ v) idx.chunks).filter
          (fun s => decide (minScore ≤ s.score)))).take topK).map Kb.toItem, ?_⟩
    simp [Kb.searchKb, h1, h2]
  · intro h1 h2 hv hall
    subst hv
    have hfil : (Kb.scoreChunks (Kb.normalizeVector sqrtQ v) idx.chunks).filter
        (fun s => decide (minScore ≤ s.score)) = [] := by
      rw [List.filter_eq_nil_iff]
      intro a ha
      simp only [decide_eq_true_eq]
      exact not_le.mpr (hall a ha)
    simp [Kb.searchKb, h1, h2, hfil, Kb.sortByScoreDesc]

/-- Witness for C6: the three tagged failures and a successful empty search at
concrete inputs. -/
theorem claim_C6_witness :
    Kb.searchKb idSqrt none "hours" "sk-key" 5 (72 / 100) (.ok [1])
      = .ok ⟨false, some "kb_not_ready", []⟩ ∧
    Kb.searchKb idSqrt (some demoIndex) "  " "sk-key" 5 (72 / 100) (.ok [1])
      = .ok ⟨false, some "empty_query", []⟩ ∧
    Kb.searchKb idSqrt (some demoIndex) "hours" "" 5 (72 / 100) (.ok [1])
      = .ok ⟨false, some "missing_api_key", []⟩ ∧
    Kb.searchKb idSqrt (some ⟨"text-embedding-3-small", []⟩) "hours" "sk-key" 5 2 (.ok [1])
      = .ok ⟨true, none, []⟩ :=
  ⟨(claim_C6 idSqrt demoIndex "hours" "sk-key" 5 (72 / 100) (.ok [1]) [1]).1,
   (claim_C6 idSqrt demoIndex "  " "sk-key" 5 (72 / 100) (.ok [1]) [1]).2.1 (by decide),
   (claim_C6 idSqrt demoIndex "hours" "" 5 (72 / 100) (.ok [1]) [1]).2.2.1 (by decide) rfl,
   (claim_C6 idSqrt ⟨"text-embedding-3-small", []⟩ "hours" "sk-key" 5 2 (.ok [1])
       [1]).2.2.2.2.1 (by decide) (by decide) rfl
     (by intro s hs; simp [Kb.scoreChunks, Kb.scoreChunksFrom] at hs)⟩

/-- The scoring map scores every chunk, in order. -/
theorem scoreChunksFrom_map_chunk (nq : List ℚ) (i : Nat) (cs : List Kb.Chunk) :
    (Kb.scoreChunksFrom nq i cs).map Kb.Scored.chunk = cs := by
  induction cs generalizing i with
  | nil => rfl
  | cons c cs ih => simp [Kb.scoreChunksFrom, ih]

/-- Every scored entry carries the dot product of the query with its chunk's
stored embedding. -/
theorem scoreChunksFrom_score (nq : List ℚ) (i : Nat) (cs : List Kb.Chunk) :
    ∀ s ∈ Kb.scoreChunksFrom nq i cs, s.score = Kb.dotProduct nq s.chunk.embedding := by
  induction cs generalizing i with
  | nil => intro s hs; cases hs
  | cons c cs ih =>
    intro s hs
    simp only [Kb.scoreChunksFrom, List.mem_cons] at hs
    rcases hs with rfl | hs
    · rfl
    · exact ih (i + 1) s hs

/-- Scored positions are bounded below by the starting index. -/
theorem scoreChunksFrom_idx_ge (nq : List ℚ) (i : Nat) (cs : List Kb.Chunk) :
    ∀ s ∈ Kb.scoreChunksFrom nq i cs, i ≤ s.idx := by
  induction cs generalizing i with
  | nil => intro s hs; cases hs
  | cons c cs ih =>
    intro s hs
    simp only [Kb.scoreChunksFrom, List.mem_cons] at hs
    rcases hs with rfl | hs
    · exact le_refl i
    · exact le_trans (Nat.le_succ i) (ih (i + 1) s hs)

/-- Scored positions are strictly increasing along the list. -/
theorem scoreChunksFrom_pairwise_idx (nq : List ℚ) (i : Nat) (cs : List Kb.Chunk) :
    (Kb.scoreChunksFrom nq i cs).Pairwise (fun a b => a.idx < b.idx) := by
  induction cs generalizing i with
  | nil => exact List.Pairwise.nil
  | cons c cs ih =>
    refine List.Pairwise.cons ?_ (ih (i + 1))
    intro b hb
    have := scoreChunksFrom_idx_ge nq (i + 1) cs b hb
    simp only [Kb.scoreChunksFrom]
    omega

/-- Inserting an element whose index precedes everything in a sorted,
stably-ordered list preserves the stable descending order. -/
theorem pairwise_stable_orderedInsert (x : Kb.Scored) (l : List Kb.Scored)
    (hs : l.Pairwise Kb.scoreGE) (hp : l.Pairwise Kb.stableRel)
    (hidx : ∀ z ∈ l, x.idx < z.idx) :
    (l.orderedInsert Kb.scoreGE x).Pairwise Kb.stableRel := by
  induction l with
  | nil => simp [List.orderedInsert]
  | cons b bs ih =>
    by_cases hxb : Kb.scoreGE x b
    · rw [List.orderedInsert, if_pos hxb]
      refine List.Pairwise.cons ?_ hp
      intro z hz
      rcases List.mem_cons.mp hz with rfl | hz
      · rcases lt_or_eq_of_le hxb with h | h
        · exact Or.inl h
        · exact Or.inr ⟨h.symm, hidx z (List.mem_cons_self z bs)⟩
      · have hzb : Kb.scoreGE b z := (List.pairwise_cons.mp hs).1 z hz
        rcases lt_or_eq_of_le (le_trans hzb hxb) with h | h
        · exact Or.inl h
        · exact Or.inr ⟨h.symm, hidx z (List.mem_cons_of_mem b hz)⟩
    · rw [List.orderedInsert, if_neg hxb]
      have hs2 := List.pairwise_cons.mp hs
      have hp2 := List.pairwise_cons.mp hp
      refine List.Pairwise.cons ?_
        (ih hs2.2 hp2.2 (fun z hz => hidx z (List.mem_cons_of_mem b hz)))
      intro z hz
      rcases (List.mem_orderedInsert Kb.scoreGE).mp hz with rfl | hz
      · exact Or.inl (lt_of_not_le hxb)
      · exact hp2.1 z hz

/-- The sort realizes the stable descending order: in its output, an element
precedes another only with a strictly higher score, or with an equal score and
an earlier original position. -/
theorem pairwise_stable_insertionSort (l : List Kb.Scored)
    (hidx : l.Pairwise (fun a b => a.idx < b.idx)) :
    (Kb.sortByScoreDesc l).Pairwise Kb.stableRel := by
  induction l with
  | nil => exact List.Pairwise.nil
  | cons x xs ih =>
    have hsorted : (Kb.sortByScoreDesc xs).Pairwise Kb.scoreGE :=
      List.sorted_insertionSort Kb.scoreGE xs
    have hp := ih (List.pairwise_cons.mp hidx).2
    have hidx2 : ∀ z ∈ Kb.sortByScoreDesc xs, x.idx < z.idx := by
      intro z hz
      exact (List.pairwise_cons.mp hidx).1 z
        ((List.perm_insertionSort Kb.scoreGE xs).mem_iff.mp hz)
    exact pairwise_stable_orderedInsert x (Kb.sortByScoreDesc xs) hsorted hp hidx2

/-- Claim C7:.  For a loaded index and a non-failing query whose embedding call
succeeds, `searchKb` embeds the query, unit-normalizes it, scores every chunk
(in order) by the dot product of the normalized query with the chunk's stored
embedding, keeps exactly the chunks scoring at least `minScore`, sorts them
descending by score with ties broken by original chunk order (stable sort),
truncates to at most `topK`, and maps each survivor to a result carrying its
rounded score, source url, title and 400-character text snippet. -/
theorem claim_C7 (sqrtQ : ℚ → ℚ) (idx : Kb.KbIndex) (query apiKey : String)
    (topK : Nat) (minScore : ℚ) (v : List ℚ)
    (h1 : Kb.jsTrim query ≠ "") (h2 : apiKey ≠ "") :
    Kb.searchKb sqrtQ (some idx) query apiKey topK minScore (.ok v)
      = .ok ⟨true, none,
          ((Kb.sortByScoreDesc
            ((Kb.scoreChunks (Kb.normalizeVector sqrtQ v) idx.chunks).filter
              (fun s => decide (minScore ≤ s.score)))).take topK).map Kb.toItem⟩ ∧
    (Kb.scoreChunks (Kb.normalizeVector sqrtQ v) idx.chunks).map Kb.Scored.chunk
      = idx.chunks ∧
    (∀ s ∈ Kb.scoreChunks (Kb.normalizeVector sqrtQ v) idx.chunks,
      s.score = Kb.dotProduct (Kb.normalizeVector sqrtQ v) s.chunk.embedding) ∧
    ((Kb.sortByScoreDesc
        ((Kb.scoreChunks (Kb.normalizeVector sqrtQ v) idx.chunks).filter
          (fun s => decide (minScore ≤ s.score)))).take topK).length ≤ topK ∧
    ((Kb.sortByScoreDesc
        ((Kb.scoreChunks (Kb.normalizeVector sqrtQ v) idx.chunks).filter
          (fun s => decide (minScore ≤ s.score)))).take topK).Pairwise Kb.scoreGE ∧
    ((Kb.sortByScoreDesc
        ((Kb.scoreChunks (Kb.normalizeVector sqrtQ v) idx.chunks).filter
          (fun s => decide (minScore ≤ s.score)))).take topK).Pairwise Kb.stableRel ∧
    (∀ s ∈ (Kb.sortByScoreDesc
        ((Kb.scoreChunks (Kb.normalizeVector sqrtQ v) idx.chunks).filter
          (fun s => decide (minScore ≤ s.score)))).take topK,
      minScore ≤ s.score ∧ s ∈ Kb.scoreChunks (Kb.normalizeVector sqrtQ v) idx.chunks) ∧
    (∀ s : Kb.Scored, Kb.toItem s
      = ⟨Kb.round4 s.score, s.chunk.url, s.chunk.title, s.chunk.text.take 400⟩) := by
  refine ⟨by simp [Kb.searchKb, h1, h2],
    scoreChunksFrom_map_chunk (Kb.normalizeVector sqrtQ v) 0 idx.chunks,
    scoreChunksFrom_score (Kb.normalizeVector sqrtQ v) 0 idx.chunks,
    List.length_take_le topK _, ?_, ?_, ?_, fun s => rfl⟩
  · exact List.Pairwise.sublist (List.take_sublist topK _)
      (List.sorted_insertionSort Kb.scoreGE _)
  · exact List.Pairwise.sublist (List.take_sublist topK _)
      (pairwise_stable_insertionSort _
        (List.Pairwise.filter _ (scoreChunksFrom_pairwise_idx _ 0 idx.chunks)))
  · intro s hs
    have hs2 : s ∈ Kb.sortByScoreDesc
        ((Kb.scoreChunks (Kb.normalizeVector sqrtQ v) idx.chunks).filter
          (fun s => decide (minScore ≤ s.score))) :=
      List.take_subset topK _ hs
    have hs3 : s ∈ (Kb.scoreChunks (Kb.normalizeVector sqrtQ v) idx.chunks).filter
        (fun s => decide (minScore ≤ s.score)) :=
      (List.perm_insertionSort Kb.scoreGE _).mem_iff.mp hs2
    have hs4 := List.mem_filter.mp hs3
    exact ⟨of_decide_eq_true hs4.2, hs4.1⟩

/-- Witness for C7 at a concrete index and query: the pipeline result and the
`topK` bound. -/
theorem claim_C7_witness :
    Kb.searchKb idSqrt (some demoIndex) "hours" "sk-key" 5 (72 / 100) (.ok [1])
      = .ok ⟨true, none,
          ((Kb.sortByScoreDesc
            ((Kb.scoreChunks (Kb.normalizeVector idSqrt [1]) demoIndex.chunks).filter
              (fun s => decide ((72 / 100 : ℚ) ≤ s.score)))).take 5).map Kb.toItem⟩ ∧
    ((Kb.sortByScoreDesc
        ((Kb.scoreChunks (Kb.normalizeVector idSqrt [1]) demoIndex.chunks).filter
          (fun s => decide ((72 / 100 : ℚ) ≤ s.score)))).take 5).length ≤ 5 :=
  ⟨(claim_C7 idSqrt demoIndex "hours" "sk-key" 5 (72 / 100) [1] (by decide) (by decide)).1,
   (claim_C7 idSqrt demoIndex "hours" "sk-key" 5 (72 / 100) [1] (by decide)
     (by decide)).2.2.2.1⟩

/-- Lowercasing fixes decimal digits. -/
theorem toLower_digit (c : Char) (h : c.isDigit = true) : c.toLower = c := by
  simp only [Char.isDigit, Bool.and_eq_true, decide_eq_true_eq] at h
  have h1 : c.val.toNat ≤ 57 := h.2
  simp only [Char.toLower, Char.toNat]
  rw [if_neg]
  omega

/-- Lowercasing fixes all-digit strings. -/
theorem toLowerL_digits (l : List Char) (h : l.all Char.isDigit = true) :
    Sanitize.toLowerL l = l := by
  induction l with
  | nil => rfl
  | cons c rest ih =>
    simp only [List.all_cons, Bool.and_eq_true] at h
    simp only [Sanitize.toLowerL, List.map_cons]
    rw [toLower_digit c h.1]
    have h2 := ih h.2
    simp only [Sanitize.toLowerL] at h2
    rw [h2]

/-- The check `containsSub` is substring (infix) containment. -/
theorem containsSub_eq_true_iff (hay pat : List Char) :
    Sanitize.containsSub hay pat = true ↔ pat <:+: hay := by
  simp only [Sanitize.containsSub, List.any_eq_true, List.mem_tails,
    List.isPrefixOf_iff_prefix]
  constructor
  · rintro ⟨t, ht, hp⟩
    exact List.infix_iff_prefix_suffix.mpr ⟨t, hp, ht⟩
  · intro h
    obtain ⟨t, hp, ht⟩ := List.infix_iff_prefix_suffix.mp h
    exact ⟨t, ht, hp⟩

/-- An all-digit string contains none of the content keywords (every keyword
has a non-digit character). -/
theorem hasKeyword_digits_false (ds : List Char) (h : ds.all Char.isDigit = true) :
    Sanitize.hasKeyword ds Sanitize.FULL_REDACT_KEYWORDS = false := by
  have hwit : ∀ k ∈ Sanitize.FULL_REDACT_KEYWORDS, ∃ c, c ∈ k ∧ c.isDigit = false := by
    decide
  rw [Sanitize.hasKeyword, List.any_eq_false]
  intro k hk
  rw [toLowerL_digits ds h]
  intro hc
  obtain ⟨c, hck, hcd⟩ := hwit k hk
  have hmem : c ∈ ds := ((containsSub_eq_true_iff ds k).mp hc).subset hck
  have hd := List.all_eq_true.mp h c hmem
  rw [hd] at hcd
  cases hcd

/-- A successful SSN-shape match starts with a digit and contains a dash. -/
theorem ssnShape_some_spec (l rem : List Char) (h : Sanitize.ssnShape l = some rem) :
    ∃ a t, l = a :: t ∧ a.isDigit = true ∧ '-' ∈ l := by
  unfold Sanitize.ssnShape at h
  split at h
  · rename_i a b c d e f g h8 i rest
    split at h
    · rename_i hall
      simp only [List.all_cons, List.all_nil, Bool.and_eq_true, Bool.and_true] at hall
      exact ⟨a, _, rfl, hall.1, by simp⟩
    · cases h
  · cases h

/-- The SSN scan leaves an all-digit string unchanged (the pattern needs
dashes). -/
theorem ssnScanF_digits (f : Nat) (b : Bool) (l : List Char)
    (h : l.all Char.isDigit = true) : Sanitize.ssnScanF f b l = (l, false) := by
  induction f generalizing b l with
  | zero => rfl
  | succ f ih =>
    cases l with
    | nil => rfl
    | cons c rest =>
      simp only [List.all_cons, Bool.and_eq_true] at h
      have hnone : Sanitize.ssnShape (c :: rest) = none := by
        cases hs : Sanitize.ssnShape (c :: rest) with
        | none => rfl
        | some rem =>
          obtain ⟨a, t, heq, had, hdash⟩ := ssnShape_some_spec _ _ hs
          have : ('-').isDigit = true :=
            List.all_eq_true.mp (by simp [h.1, h.2]) '-' hdash
          cases this
      cases b with
      | true => simp [Sanitize.ssnScanF, ih (Sanitize.isWordChar c) rest h.2]
      | false => simp [Sanitize.ssnScanF, hnone, ih (Sanitize.isWordChar c) rest h.2]

/-- A digit is not a card-run separator. -/
theorem isSepChar_of_digit (c : Char) (h : c.isDigit = true) :
    Sanitize.isSepChar c = false := by
  by_cases h1 : c = ' '
  · subst h1; cases h
  · by_cases h2 : c = '-'
    · subst h2; cases h
    · simp [Sanitize.isSepChar, h1, h2]

/-- The digit chain of an all-digit string consumes the whole string. -/
theorem chainTake_digits (n : Nat) (l : List Char) (h : l.all Char.isDigit = true)
    (hlen : l.length ≤ n) : Sanitize.chainTake n l = (l, l, []) := by
  induction n generalizing l with
  | zero =>
    cases l with
    | nil => rfl
    | cons c rest => simp at hlen
  | succ n ih =>
    cases l with
    | nil => rfl
    | cons c rest =>
      simp only [List.all_cons, Bool.and_eq_true] at h
      have ht : (c :: rest).takeWhile Sanitize.isSepChar = [] := by
        simp [List.takeWhile_cons, isSepChar_of_digit c h.1]
      have hd : (c :: rest).dropWhile Sanitize.isSepChar = c :: rest := by
        simp [List.dropWhile_cons, isSepChar_of_digit c h.1]
      have hrest : Sanitize.chainTake n rest = (rest, rest, []) :=
        ih rest h.2 (by simpa using Nat.le_of_succ_le_succ hlen)
      simp [Sanitize.chainTake, List.span_eq_take_drop, ht, hd, h.1, hrest]

/-- The card scan over an all-digit 16-character string: the single greedy
match covers the whole string and is replaced exactly when it passes the Luhn
check. -/
theorem cardScanF_digits16 (ds : List Char) (h : ds.all Char.isDigit = true)
    (hlen : ds.length = 16) :
    Sanitize.cardScanF ds.length ds =
      (if Sanitize.luhnCheck ds then (Sanitize.markerL, true) else (ds, false)) := by
  cases ds with
  | nil => simp at hlen
  | cons c rest =>
    simp only [List.all_cons, Bool.and_eq_true] at h
    have hr15 : rest.length = 15 := by simpa using hlen
    have hchain : Sanitize.chainTake 18 rest = (rest, rest, []) :=
      chainTake_digits 18 rest h.2 (by omega)
    have hmatch : Sanitize.cardMatchAt c rest = some (c :: rest, c :: rest, []) := by
      simp [Sanitize.cardMatchAt, h.1, hchain, hr15]
    have hnil : Sanitize.cardScanF 15 [] = ([], false) := rfl
    have hfuel : (c :: rest).length = 15 + 1 := by simpa using hlen
    rw [hfuel]
    simp [Sanitize.cardScanF, hmatch, hnil, hr15]

/-- Claim C8:.  For a 16-digit string value under a field name that does not
trigger the key-name rule: the content-keyword, SSN and separator rules
cannot apply to pure digits, so the value is fully replaced by the redaction
marker exactly when it passes the Luhn checksum and left unchanged when it
fails it. -/
theorem claim_C8 (ds keyHint : List Char) (hdig : ds.all Char.isDigit = true)
    (hlen : ds.length = 16)
    (hkey : Sanitize.hasKeyword keyHint Sanitize.KEY_SENSITIVE_HINTS = false) :
    (Sanitize.luhnCheck ds = true →
      Sanitize.redactSensitiveText ds keyHint = (Sanitize.markerL, true)) ∧
    (Sanitize.luhnCheck ds = false →
      Sanitize.redactSensitiveText ds keyHint = (ds, false)) := by
  have hkw := hasKeyword_digits_false ds hdig
  have hssn := ssnScanF_digits ds.length false ds hdig
  have hcard := cardScanF_digits16 ds hdig hlen
  constructor <;> intro hl <;>
    simp [Sanitize.redactSensitiveText, hkey, hkw, hssn, Sanitize.redactCardNumbers,
      hcard, hl]

/-- Witness for C8: `4111111111111111` (valid Luhn) is fully replaced,
`4111111111111112` (invalid Luhn) is left unchanged — also through the full
payload walk under a non-sensitive field name. -/
theorem claim_C8_witness :
    Sanitize.redactSensitiveText "4111111111111111".data "city".data
      = (Sanitize.markerL, true) ∧
    Sanitize.redactSensitiveText "4111111111111112".data "city".data
      = ("4111111111111112".data, false) ∧
    (Sanitize.sanitizePayload
        (.obj (.cons "city".data (.str "4111111111111111".data) .nil))).1
      = .obj (.cons "city".data (.str Sanitize.markerL) .nil) :=
  ⟨(claim_C8 "4111111111111111".data "city".data (by decide) (by decide) (by decide)).1
     (by decide),
   (claim_C8 "4111111111111112".data "city".data (by decide) (by decide) (by decide)).2
     (by decide),
   rfl⟩

/-- The SSN scan leaves a digit-free string unchanged (a match must start
with a digit). -/
theorem ssnScanF_digitFree (f : Nat) (b : Bool) (l : List Char)
    (h : l.all (fun c => !c.isDigit) = true) : Sanitize.ssnScanF f b l = (l, false) := by
  induction f generalizing b l with
  | zero => rfl
  | succ f ih =>
    cases l with
    | nil => rfl
    | cons c rest =>
      simp only [List.all_cons, Bool.and_eq_true, Bool.not_eq_true'] at h
      have hnone : Sanitize.ssnShape (c :: rest) = none := by
        cases hs : Sanitize.ssnShape (c :: rest) with
        | none => rfl
        | some rem =>
          obtain ⟨a, t, heq, had, -⟩ := ssnShape_some_spec _ _ hs
          rw [List.cons.injEq] at heq
          rw [← heq.1, h.1] at had
          cases had
      have hrest : rest.all (fun c => !c.isDigit) = true := by
        simp only [List.all_eq_true]
        intro x hx
        simp [List.all_eq_true] at h
        simp [h.2 x hx]
      cases b with
      | true => simp [Sanitize.ssnScanF, ih (Sanitize.isWordChar c) rest hrest]
      | false => simp [Sanitize.ssnScanF, hnone, ih (Sanitize.isWordChar c) rest hrest]

/-- The card scan leaves a digit-free string unchanged (a match must start
with a digit). -/
theorem cardScanF_digitFree (f : Nat) (l : List Char)
    (h : l.all (fun c => !c.isDigit) = true) : Sanitize.cardScanF f l = (l, false) := by
  induction f generalizing l with
  | zero => rfl
  | succ f ih =>
    cases l with
    | nil => rfl
    | cons c rest =>
      simp only [List.all_cons, Bool.and_eq_true, Bool.not_eq_true'] at h
      have hmatch : Sanitize.cardMatchAt c rest = none := by
        simp [Sanitize.cardMatchAt, h.1]
      have hrest : rest.all (fun c => !c.isDigit) = true := by
        simp only [List.all_eq_true]
        intro x hx
        simp [List.all_eq_true] at h
        simp [h.2 x hx]
      simp [Sanitize.cardScanF, hmatch, ih rest hrest]

/-- On digit-free values `redactSensitiveText` is idempotent: the only
possible replacement is the whole-value marker, which is itself a fixpoint. -/
theorem redactSensitiveText_idem (s keyHint : List Char)
    (h : s.all (fun c => !c.isDigit) = true) :
    (Sanitize.redactSensitiveText (Sanitize.redactSensitiveText s keyHint).1 keyHint).1
      = (Sanitize.redactSensitiveText s keyHint).1 := by
  by_cases hk : Sanitize.hasKeyword keyHint Sanitize.KEY_SENSITIVE_HINTS = true
  · simp [Sanitize.redactSensitiveText, hk]
  · rw [Bool.not_eq_true] at hk
    by_cases hv : Sanitize.hasKeyword s Sanitize.FULL_REDACT_KEYWORDS = true
    · have hm1 : Sanitize.redactSensitiveText s keyHint = (Sanitize.markerL, true) := by
        simp [Sanitize.redactSensitiveText, hk, hv]
      rw [hm1]
      simp [Sanitize.redactSensitiveText, hk,
        (by decide : Sanitize.hasKeyword Sanitize.markerL Sanitize.FULL_REDACT_KEYWORDS
          = false),
        ssnScanF_digitFree Sanitize.markerL.length false Sanitize.markerL (by decide),
        Sanitize.redactCardNumbers,
        cardScanF_digitFree Sanitize.markerL.length Sanitize.markerL (by decide)]
    · rw [Bool.not_eq_true] at hv
      have hout : Sanitize.redactSensitiveText s keyHint = (s, false) := by
        simp [Sanitize.redactSensitiveText, hk, hv, ssnScanF_digitFree s.length false s h,
          Sanitize.redactCardNumbers, cardScanF_digitFree s.length s h]
      rw [hout, hout]

mutual
/-- Double sanitization of a digit-free value is single sanitization. -/
theorem walkValue_idem : ∀ (v : Sanitize.JValue) (path : List Char),
    Sanitize.valueDigitFree v = true →
    (Sanitize.walkValue (Sanitize.walkValue v path).1 path).1
      = (Sanitize.walkValue v path).1
  | .str s, path, h => by
    have hs : s.all (fun c => !c.isDigit) = true := h
    simp only [Sanitize.walkValue]
    exact congrArg Sanitize.JValue.str
      (redactSensitiveText_idem s (Sanitize.lastDotSegment path) hs)
  | .num n, _, _ => rfl
  | .bool b, _, _ => rfl
  | .null, _, _ => rfl
  | .arr items, path, h => by
    simp only [Sanitize.walkValue]
    exact congrArg Sanitize.JValue.arr (walkArray_idem items path 0 h)
  | .obj fields, path, h => by
    simp only [Sanitize.walkValue]
    exact congrArg Sanitize.JValue.obj (walkObject_idem fields path h)
/-- Lemma `walkValue_idem` extended to arrays, for every path and start index. -/
theorem walkArray_idem : ∀ (items : Sanitize.JArray) (path : List Char) (i : Nat),
    Sanitize.arrayDigitFree items = true →
    (Sanitize.walkArray (Sanitize.walkArray items path i).1 path i).1
      = (Sanitize.walkArray items path i).1
  | .nil, _, _, _ => rfl
  | .cons v tl, path, i, h => by
    have h2 : Sanitize.valueDigitFree v = true ∧ Sanitize.arrayDigitFree tl = true := by
      simpa [Sanitize.arrayDigitFree, Bool.and_eq_true] using h
    simp only [Sanitize.walkArray]
    rw [walkValue_idem v (path ++ ('[' :: Sanitize.natDigits i) ++ [']']) h2.1,
      walkArray_idem tl path (i + 1) h2.2]
/-- Lemma `walkValue_idem` extended to objects, for every path. -/
theorem walkObject_idem : ∀ (fields : Sanitize.JObject) (path : List Char),
    Sanitize.objectDigitFree fields = true →
    (Sanitize.walkObject (Sanitize.walkObject fields path).1 path).1
      = (Sanitize.walkObject fields path).1
  | .nil, _, _ => rfl
  | .cons k v tl, path, h => by
    have h2 : Sanitize.valueDigitFree v = true ∧ Sanitize.objectDigitFree tl = true := by
      simpa [Sanitize.objectDigitFree, Bool.and_eq_true] using h
    simp only [Sanitize.walkObject]
    rw [walkValue_idem v (if path.isEmpty then k else path ++ '.' :: k) h2.1,
      walkObject_idem tl path h2.2]
end

/-- Claim C9: — counterexample.  `sanitize` is not idempotent: in the value
`"1234567890 123-45-67894111111111111111"` the first pass's card scan
greedily matches the first 19 digits `1234567890 123-45-6789` (Luhn-invalid,
kept) and then replaces the Luhn-valid `4111111111111111`; the surviving
`123-45-6789` is now followed by the marker's `[` instead of a digit, so the
second pass's SSN rule matches it and redacts further:
`sanitize(sanitize(x)) ≠ sanitize(x)`. -/
theorem claim_C9_counterexample :
    (Sanitize.sanitizePayload (Sanitize.sanitizePayload cex9).1).1
      ≠ (Sanitize.sanitizePayload cex9).1 := by
  intro h
  have h2 := congrArg Sanitize.firstStringValue h
  revert h2
  decide

/-- Claim C9: — amended.  `sanitize` is idempotent on every payload whose string
values contain no decimal digit (in particular whenever only the key-name,
content-keyword or no rule fires): `sanitize(sanitize(x)) = sanitize(x)`.  On
digit-bearing values a second pass can redact more, as in the
counterexample, where a card replacement exposes a fresh SSN-pattern match. -/
theorem claim_C9 (v : Sanitize.JValue) (h : Sanitize.valueDigitFree v = true) :
    (Sanitize.sanitizePayload (Sanitize.sanitizePayload v).1).1
      = (Sanitize.sanitizePayload v).1 :=
  walkValue_idem v [] h

/-- Witness for C9 at a concrete digit-free payload (one key-name redaction,
one content-keyword redaction). -/
theorem claim_C9_witness :
    (Sanitize.sanitizePayload (Sanitize.sanitizePayload w9).1).1
      = (Sanitize.sanitizePayload w9).1 :=
  claim_C9 w9 (by decide)

/-- Single-character replacement distributes over concatenation. -/
theorem replaceCharL_append (c : Char) (r a b : List Char) :
    Twiml.replaceCharL c r (a ++ b)
      = Twiml.replaceCharL c r a ++ Twiml.replaceCharL c r b := by
  simp [Twiml.replaceCharL]

/-- Single-character replacement on a one-character string. -/
theorem replaceCharL_singleton (c : Char) (r : List Char) (x : Char) :
    Twiml.replaceCharL c r [x] = if x = c then r else [x] := by
  by_cases h : x = c <;> simp [Twiml.replaceCharL, h]

/-- The map `escapeXml` distributes over concatenation. -/
theorem escapeXmlL_append (a b : List Char) :
    Twiml.escapeXmlL (a ++ b) = Twiml.escapeXmlL a ++ Twiml.escapeXmlL b := by
  simp [Twiml.escapeXmlL, replaceCharL_append]

/-- The sequential `replaceAll` chain of `escapeXml` equals the per-character
escape: every character is independently mapped to its entity (for the five
specials) or itself — no entity is re-escaped and no special survives. -/
theorem escapeXmlL_eq_flatten_map (l : List Char) :
    Twiml.escapeXmlL l = (l.map Twiml.escChar).flatten := by
  induction l with
  | nil => rfl
  | cons x xs ih =>
    have hx : Twiml.escapeXmlL [x] = Twiml.escChar x := by
      by_cases h1 : x = '&'
      · subst h1; rfl
      · by_cases h2 : x = '<'
        · subst h2; rfl
        · by_cases h3 : x = '>'
          · subst h3; rfl
          · by_cases h4 : x = Twiml.quoteC
            · subst h4; rfl
            · by_cases h5 : x = Twiml.aposC
              · subst h5; rfl
              · simp [Twiml.escapeXmlL, replaceCharL_singleton, h1, h2, h3, h4, h5,
                  Twiml.escChar]
    have hsplit : Twiml.escapeXmlL (x :: xs) = Twiml.escapeXmlL [x] ++ Twiml.escapeXmlL xs := by
      have := escapeXmlL_append [x] xs
      simpa using this
    rw [hsplit, hx, ih]
    simp

/-- Escaped output never contains a raw `<`, `>`, `"` or `'`. -/
theorem escChar_no_raw (c y : Char) (h : y ∈ Twiml.escChar c) :
    y ≠ '<' ∧ y ≠ '>' ∧ y ≠ Twiml.quoteC ∧ y ≠ Twiml.aposC := by
  by_cases h1 : c = '&'
  · subst h1
    rw [(by decide : Twiml.escChar '&' = "&amp;".data)] at h
    fin_cases h <;> decide
  · by_cases h2 : c = '<'
    · subst h2
      rw [(by decide : Twiml.escChar '<' = "&lt;".data)] at h
      fin_cases h <;> decide
    · by_cases h3 : c = '>'
      · subst h3
        rw [(by decide : Twiml.escChar '>' = "&gt;".data)] at h
        fin_cases h <;> decide
      · by_cases h4 : c = Twiml.quoteC
        · subst h4
          rw [(by decide : Twiml.escChar Twiml.quoteC = "&quot;".data)] at h
          fin_cases h <;> decide
        · by_cases h5 : c = Twiml.aposC
          · subst h5
            rw [(by decide : Twiml.escChar Twiml.aposC = "&apos;".data)] at h
            fin_cases h <;> decide
          · simp [Twiml.escChar, h1, h2, h3, h4, h5] at h
            subst h
            exact ⟨h2, h3, h4, h5⟩

/-- The TwiML builder inserts the URL and every parameter name/value only
through `escapeXml`. -/
theorem twimlConnectStream_eq_template (wsUrl : String)
    (parameters : List (String × String)) :
    Twiml.twimlConnectStream wsUrl parameters
      = Twiml.twimlTemplate (Twiml.escapeXml wsUrl)
          ((parameters.filter (fun p => p.2 != "")).map
            (fun p => (Twiml.escapeXml p.1, Twiml.escapeXml p.2))) := by
  cases h : parameters.filter (fun p => p.2 != "") with
  | nil => simp [Twiml.twimlConnectStream, Twiml.twimlTemplate, h]
  | cons p ps =>
    simp [Twiml.twimlConnectStream, Twiml.twimlTemplate, h, Twiml.paramLine,
      List.map_map, Function.comp_def]

/-- Claim C10:.  The TwiML builder passes the websocket URL and every parameter
name and value through `escapeXml` before insertion (first conjunct: the
document equals the fixed template over the escaped strings), and `escapeXml`
maps each source character independently to its XML entity for the five
specials `& < > " '` and to itself otherwise, so its output contains no raw
`<`, `>`, `"` or `'` and every special character coming from caller-supplied
data appears in the document only as its entity. -/
theorem claim_C10 (wsUrl : String) (parameters : List (String × String))
    (s : List Char) :
    Twiml.twimlConnectStream wsUrl parameters
      = Twiml.twimlTemplate (Twiml.escapeXml wsUrl)
          ((parameters.filter (fun p => p.2 != "")).map
            (fun p => (Twiml.escapeXml p.1, Twiml.escapeXml p.2))) ∧
    Twiml.escapeXmlL s = (s.map Twiml.escChar).flatten ∧
    (∀ y ∈ Twiml.escapeXmlL s,
      y ≠ '<' ∧ y ≠ '>' ∧ y ≠ Twiml.quoteC ∧ y ≠ Twiml.aposC) ∧
    Twiml.escChar '&' = "&amp;".data ∧ Twiml.escChar '<' = "&lt;".data ∧
    Twiml.escChar '>' = "&gt;".data ∧ Twiml.escChar Twiml.quoteC = "&quot;".data ∧
    Twiml.escChar Twiml.aposC = "&apos;".data := by
  refine ⟨twimlConnectStream_eq_template wsUrl parameters,
    escapeXmlL_eq_flatten_map s, ?_, by decide, by decide, by decide, by decide, by decide⟩
  intro y hy
  rw [escapeXmlL_eq_flatten_map] at hy
  obtain ⟨blk, hblk, hyblk⟩ := List.mem_flatten.mp hy
  obtain ⟨c, -, rfl⟩ := List.mem_map.mp hblk
  exact escChar_no_raw c y hyblk

/-- Witness for C10: a caller number with XML-special characters cannot break
out of the `Parameter` attribute — the generated document and an escaping
instance, evaluated concretely. -/
theorem claim_C10_witness :
    Twiml.twimlConnectStream "wss://h/x" [("caller", "+1<x>")]
      = Twiml.twimlTemplate (Twiml.escapeXml "wss://h/x")
          (([("caller", "+1<x>")].filter (fun p => p.2 != "")).map
            (fun p => (Twiml.escapeXml p.1, Twiml.escapeXml p.2))) ∧
    (('a' : Char) ≠ '<' ∧ ('a' : Char) ≠ '>' ∧ ('a' : Char) ≠ Twiml.quoteC ∧
      ('a' : Char) ≠ Twiml.aposC) :=
  ⟨(claim_C10 "wss://h/x" [("caller", "+1<x>")] "a&b".data).1,
   (claim_C10 "wss://h/x" [("caller", "+1<x>")] "a&b".data).2.2.1 'a' (by decide)⟩

end Voice
